import Mathlib

/-!
Verification of the streaming state table (`src/stream/src/common/table/state_table.rs`)
against its natural-language specification.

The state table is shallowly embedded: the `StateTable` struct and its operations
(`update_watermark`, `commit`, `seal_current_epoch`, `commit_no_data_expected`,
`update_vnode_bitmap`, `insert`/`delete`/`update`, `write_chunk`,
`get_compacted_row`, the sanity-check routines, and the range-bound conversion
`to_memcomparable`) are translated into pure Lean functions.  Machine integers
become `Nat` (with explicit `% 2^w` where width matters), byte strings become
`List Nat`, fallible / panicking paths become `Option`.

Components of the repository that the state table consumes but whose sources are
not part of this tree (the local-store capability of spec §4.3, the row codec of
§4.1, the distribution hash of §4.2, and the hummock key helpers
`end_bound_of_prefix` / `start_bound_of_excluded_prefix` / `prefixed_range`) are
modelled from the spec; each such definition is marked `Modelled from the spec`.
-/

namespace RW

/-- Byte strings are lists of byte values. -/
abbrev Bytes := List Nat

/-- A relational row is a list of (non-null integer) datums. -/
abbrev Row := List Nat

/-- Big-endian fixed-width byte encoding of `n` at width `w`. -/
def beBytes (w n : Nat) : Bytes :=
  (List.range w).map (fun i => n / 256 ^ (w - 1 - i) % 256)

/-- Big-endian bytes of a Rust `usize` (64-bit), as produced by
`usize::to_be_bytes()` on the indices yielded by `Bitmap::iter_ones` in
`seal_current_epoch`. -/
def usizeBeBytes (n : Nat) : Bytes := beBytes 8 (n % 2 ^ 64)

/-- Modelled from the spec: the missing `VirtualNode::to_be_bytes` — the
fixed-width big-endian vnode prefix of every stored key, with `V_BYTES = 2`
(spec §3 key layout and §9 vnode width). -/
def vnodeBeBytes (n : Nat) : Bytes := beBytes 2 (n % 2 ^ 16)

/-- Modelled from the spec: the missing per-type memcomparable encoder of the
row codec (§4.1) for one non-null integer pk column in ascending order.  A
fixed-width big-endian encoding is self-delimiting and order-preserving as §4.1
requires. -/
def serDatum (d : Nat) : Bytes := beBytes 4 d

/-- Modelled from the spec: the missing `OrderedRowSerde` pk-prefix
serialization (`serialize_pk`, §4.1): concatenation of the per-column
memcomparable encodings.  Because every per-column encoding is self-delimiting,
the prefix serializer of the first `k` columns coincides with this function on
length-`k` rows. -/
def serializePkPfx (row : Row) : Bytes := (row.map serDatum).flatten

/-- The serialized single-column pk-prefix at a watermark scalar:
`serialize_pk(row::once(Some(w)), pk_serde.prefix(1))`. -/
def serializeWatermark (w : Nat) : Bytes := serializePkPfx [w]

/-- Modelled from the spec: the missing value encoding (`value_serialize_bytes`,
§4.1) — concatenation of the projected columns' encodings. -/
def serializeValueRow (row : Row) : Bytes := (row.map serDatum).flatten

/-- Row projection (`Row::project`): select the datums at `indices`. -/
def project (row : Row) (indices : List Nat) : Row :=
  indices.map (fun i => row.getD i 0)

/-- Modelled from the spec: the missing distribution hash (§4.2) — "any fixed,
documented 64-bit hash": a 64-bit polynomial fold of the projected datums. -/
def distHash (datums : List Nat) : Nat :=
  datums.foldl (fun a d => (a * 31 + d) % 2 ^ 64) 0

/-- Modelled from the spec: the missing `compute_vnode` (§4.2) — `0` for an
empty distribution key (singleton), otherwise the hash of the projected
distribution-key datums reduced mod `V` (the bitmap size). -/
def compute_vnode (row : Row) (indices : List Nat) (vnodes : List Bool) : Nat :=
  if indices = [] then 0
  else distHash (project row indices) % vnodes.length

/-- Indices of the set bits of a bitmap (`Bitmap::iter_ones`). -/
def iterOnes (bm : List Bool) : List Nat :=
  (List.range bm.length).filter (fun i => bm.getD i false)

/-- A staged (in-memory, not yet sealed) write in the local store. -/
inductive StagedOp where
  | ins (key value : Bytes) (old_hint : Option Bytes)
  | del (key old_value : Bytes)
deriving DecidableEq

/-- Modelled from the spec: the missing local-store capability (§4.3).
`epoch` is the current epoch, `committed` the sealed contents, `staged` the
pending buffer since the last seal, and `sealed` the log of
`(next_epoch, delete_ranges)` pairs passed to `seal_current_epoch`. -/
structure LocalStore where
  epoch : Nat
  committed : List (Bytes × Bytes)
  staged : List StagedOp
  sealed : List (Nat × List (Bytes × Bytes))
deriving DecidableEq

/-- Store capability `insert(key, new_value, old_value?)`: stage an upsert. -/
def LocalStore.insert (s : LocalStore) (key value : Bytes) (old_hint : Option Bytes) :
    LocalStore :=
  { s with staged := s.staged ++ [StagedOp.ins key value old_hint] }

/-- Store capability `delete(key, old_value)`: stage a tombstone. -/
def LocalStore.delete (s : LocalStore) (key old_value : Bytes) : LocalStore :=
  { s with staged := s.staged ++ [StagedOp.del key old_value] }

/-- Store capability `is_dirty()`: any staged op since the last seal. -/
def LocalStore.is_dirty (s : LocalStore) : Bool := !s.staged.isEmpty

/-- Store capability `seal_current_epoch(next_epoch, delete_ranges)`: flush the
staged ops and the explicit delete-ranges, then advance to `next_epoch`. -/
def LocalStore.seal_current_epoch (s : LocalStore) (next_epoch : Nat)
    (delete_ranges : List (Bytes × Bytes)) : LocalStore :=
  { s with epoch := next_epoch, staged := [],
           sealed := s.sealed ++ [(next_epoch, delete_ranges)] }

/-- The effect of the staged buffer on a point lookup: `some (some v)` when the
latest staged op for `key` is an insert of `v`, `some none` when it is a
delete, `none` when no staged op touches `key`. -/
def stagedLookup (ops : List StagedOp) (key : Bytes) : Option (Option Bytes) :=
  ops.foldl
    (fun acc op =>
      match op with
      | StagedOp.ins k v _ => if k = key then some (some v) else acc
      | StagedOp.del k _ => if k = key then some none else acc)
    none

/-- Store capability `get(key)`: point lookup merging pending writes over the
committed contents (spec §4.3). -/
def LocalStore.get (s : LocalStore) (key : Bytes) : Option Bytes :=
  match stagedLookup s.staged key with
  | some v => v
  | none => (s.committed.find? (fun kv => decide (kv.1 = key))).map (fun kv => kv.2)

/-- The read options attached to every store read
(`risingwave_storage::store::ReadOptions`). -/
structure ReadOptions where
  prefix_hint : Option Bytes
  check_bloom_filter : Bool
  retention_seconds : Option Nat
  table_id : Nat
  ignore_range_tombstone : Bool
  read_version_from_backup : Bool
deriving DecidableEq

/-- An epoch pair `(prev, curr)`. -/
structure EpochPair where
  prev : Nat
  curr : Nat
deriving DecidableEq

/-- `STATE_CLEANING_PERIOD_EPOCH` (state_table.rs line 49). -/
def STATE_CLEANING_PERIOD_EPOCH : Nat := 5

/-- The `StateTable` struct (state_table.rs lines 54-110).  `vnodes` is the
owned-vnode bitmap; `retention_seconds` stands for the `table_option` field,
which is only ever read for its retention seconds. -/
structure StateTable where
  table_id : Nat
  local_store : LocalStore
  pk_indices : List Nat
  dist_key_indices : List Nat
  dist_key_in_pk_indices : List Nat
  prefix_hint_len : Nat
  vnodes : List Bool
  retention_seconds : Option Nat
  disable_sanity_check : Bool
  vnode_col_idx_in_pk : Option Nat
  value_indices : Option (List Nat)
  last_watermark : Option Nat
  cur_watermark : Option Nat
  num_wmked_commits_since_last_clean : Nat
deriving DecidableEq

/-- `is_dirty` (line 445). -/
def StateTable.is_dirty (st : StateTable) : Bool := st.local_store.is_dirty

/-- `compute_prefix_vnode` (lines 407-417): read the vnode column when
configured, else assert that the prefix covers all distribution-key positions
and hash; `none` models the assertion/panic failures. -/
def compute_prefix_vnode (st : StateTable) (pk_pfx : Row) : Option Nat :=
  match st.vnode_col_idx_in_pk with
  | some idx =>
      if idx < pk_pfx.length then some (pk_pfx.getD idx 0) else none
  | none =>
      if st.dist_key_in_pk_indices.all (fun d => decide (d < pk_pfx.length)) then
        some (compute_vnode pk_pfx st.dist_key_in_pk_indices st.vnodes)
      else none

/-- `serialize_pk_with_vnode`: the vnode prefix followed by the memcomparable
pk encoding (spec §3 key layout). -/
def serialize_pk_with_vnode (pk : Row) (vnode : Nat) : Bytes :=
  vnodeBeBytes vnode ++ serializePkPfx pk

/-- `serialize_value` (lines 546-552): project by `value_indices` when they are
present, then value-encode. -/
def StateTable.serialize_value (st : StateTable) (value : Row) : Bytes :=
  match st.value_indices with
  | some vi => serializeValueRow (project value vi)
  | none => serializeValueRow value

/-- `insert_inner` (lines 554-558): stage the upsert in the local store with no
old-value hint.  (The mem-table conflict panic lives in the external store and
does not arise in the modelled capability, which always stages.) -/
def insert_inner (st : StateTable) (key_bytes value_bytes : Bytes) : StateTable :=
  { st with local_store := st.local_store.insert key_bytes value_bytes none }

/-- `delete_inner` (lines 560-564): stage the tombstone in the local store. -/
def delete_inner (st : StateTable) (key_bytes value_bytes : Bytes) : StateTable :=
  { st with local_store := st.local_store.delete key_bytes value_bytes }

/-- `update_inner` (lines 566-570): stage the upsert with the old value as
sanity hint. -/
def update_inner (st : StateTable) (key_bytes old_value_bytes new_value_bytes : Bytes) :
    StateTable :=
  { st with
    local_store := st.local_store.insert key_bytes new_value_bytes (some old_value_bytes) }

/-- `insert` (lines 574-580): project the pk, serialize key and value, stage. -/
def StateTable.insert (st : StateTable) (value : Row) : Option StateTable :=
  let pk := project value st.pk_indices
  match compute_prefix_vnode st pk with
  | none => none
  | some vnode =>
      some (insert_inner st (serialize_pk_with_vnode pk vnode) (st.serialize_value value))

/-- `delete` (lines 584-590). -/
def StateTable.delete (st : StateTable) (old_value : Row) : Option StateTable :=
  let pk := project old_value st.pk_indices
  match compute_prefix_vnode st pk with
  | none => none
  | some vnode =>
      some (delete_inner st (serialize_pk_with_vnode pk vnode) (st.serialize_value old_value))

/-- `update` (lines 593-607): both rows must share the pk (debug assertion),
then stage an upsert carrying the old value. -/
def StateTable.update (st : StateTable) (old_value new_value : Row) : Option StateTable :=
  let old_pk := project old_value st.pk_indices
  let new_pk := project new_value st.pk_indices
  if old_pk = new_pk then
    match compute_prefix_vnode st new_pk with
    | none => none
    | some vnode =>
        some (update_inner st (serialize_pk_with_vnode new_pk vnode)
          (st.serialize_value old_value) (st.serialize_value new_value))
  else none

/-- `update_watermark` (lines 661-663): unconditionally install the new
watermark. -/
def update_watermark (st : StateTable) (watermark : Nat) : StateTable :=
  { st with cur_watermark := some watermark }

/-- `seal_current_epoch` (lines 691-769).  The counter is bumped inside the
`and_then` closure whenever `cur_watermark` is `Some`; cleaning triggers when
the bumped counter reaches `STATE_CLEANING_PERIOD_EPOCH`, in which case one
delete-range per set vnode bit is emitted, `last_watermark` takes the old
`cur_watermark`, and the counter resets.  `none` models the
`prefix_serializer.unwrap()` panic on an empty pk with a triggered cleaning. -/
def seal_current_epoch (st : StateTable) (next_epoch : Nat) : Option StateTable :=
  let bumped :=
    if st.cur_watermark.isSome then st.num_wmked_commits_since_last_clean + 1
    else st.num_wmked_commits_since_last_clean
  let watermark : Option Nat :=
    match st.cur_watermark with
    | none => none
    | some w => if STATE_CLEANING_PERIOD_EPOCH ≤ bumped then some w else none
  match watermark with
  | none =>
      some { st with
        local_store := st.local_store.seal_current_epoch next_epoch []
        num_wmked_commits_since_last_clean := bumped }
  | some w =>
      if st.pk_indices = [] then none
      else
        let range_end_suffix := serializeWatermark w
        let range_begin_suffix :=
          match st.last_watermark with
          | some lw => serializeWatermark lw
          | none => []
        let delete_ranges :=
          (iterOnes st.vnodes).map (fun vnode =>
            (usizeBeBytes vnode ++ range_begin_suffix,
             usizeBeBytes vnode ++ range_end_suffix))
        some { st with
          local_store := st.local_store.seal_current_epoch next_epoch delete_ranges
          last_watermark := st.cur_watermark
          cur_watermark := none
          num_wmked_commits_since_last_clean := 0 }

/-- `commit` (lines 665-671): assert the store is at `prev` (`none` on
violation), bump the counter when a watermark is present, then seal. -/
def commit (st : StateTable) (new_epoch : EpochPair) : Option StateTable :=
  if st.local_store.epoch = new_epoch.prev then
    let st1 :=
      if st.cur_watermark.isSome then
        { st with
          num_wmked_commits_since_last_clean := st.num_wmked_commits_since_last_clean + 1 }
      else st
    seal_current_epoch st1 new_epoch.curr
  else none

/-- `commit_no_data_expected` (lines 681-688): assert the store is at `prev`
and clean, then seal with an empty delete-range list. -/
def commit_no_data_expected (st : StateTable) (new_epoch : EpochPair) : Option StateTable :=
  if st.local_store.epoch = new_epoch.prev ∧ st.is_dirty = false then
    some { st with local_store := st.local_store.seal_current_epoch new_epoch.curr [] }
  else none

/-- `update_vnode_bitmap` (lines 504-521): fatal (`none`) when dirty, when a
singleton table's bitmap would change, or when the sizes differ; otherwise
clear both watermarks, install the new bitmap and return the previous one. -/
def update_vnode_bitmap (st : StateTable) (new_vnodes : List Bool) :
    Option (List Bool × StateTable) :=
  if st.is_dirty = true then none
  else if st.dist_key_indices = [] ∧ new_vnodes ≠ st.vnodes then none
  else if st.vnodes.length ≠ new_vnodes.length then none
  else
    some (st.vnodes,
      { st with cur_watermark := none, last_watermark := none, vnodes := new_vnodes })

/-- The `(key, read_options)` pair of the point get issued by
`get_compacted_row` (lines 473-500): `prefix_hint` is always `None`;
`check_bloom_filter` holds iff `prefix_hint_len` is nonzero and equals the
prefix length.  `none` models the vnode-computation assertion and the
`pk.len() <= pk_indices.len()` assertion. -/
def get_compacted_row_request (st : StateTable) (pk : Row) : Option (Bytes × ReadOptions) :=
  match compute_prefix_vnode st pk with
  | none => none
  | some vnode =>
      if pk.length ≤ st.pk_indices.length then
        some (serialize_pk_with_vnode pk vnode,
          { prefix_hint := none
            check_bloom_filter :=
              decide (st.prefix_hint_len ≠ 0) && decide (st.prefix_hint_len = pk.length)
            retention_seconds := st.retention_seconds
            table_id := st.table_id
            ignore_range_tombstone := false
            read_version_from_backup := false })
      else none

/-- `do_insert_sanity_check` (lines 772-801): `true` when the check passes,
`false` when it would panic — namely when a value for the key is already
present in the store. -/
def do_insert_sanity_check (st : StateTable) (key : Bytes) (value : Bytes) : Bool :=
  match st.local_store.get key with
  | some _ => false
  | none => true

/-- `do_delete_sanity_check` (lines 804-834): `true` when the check passes,
`false` when it would panic — namely when the key is absent or its stored
value differs from the expected old row. -/
def do_delete_sanity_check (st : StateTable) (key old_row : Bytes) : Bool :=
  match st.local_store.get key with
  | none => false
  | some stored => decide (stored = old_row)

/-- `do_update_sanity_check` (lines 837-871): same store-side condition as the
delete check. -/
def do_update_sanity_check (st : StateTable) (key old_row new_row : Bytes) : Bool :=
  match st.local_store.get key with
  | none => false
  | some stored => decide (stored = old_row)

/-- The per-row operations of a stream chunk. -/
inductive Op where
  | insert
  | delete
  | updateInsert
  | updateDelete
deriving DecidableEq

/-- A stream chunk: aligned ops and rows plus a visibility, which is either an
explicit bitmap (`Vis::Bitmap`) or compact/all-visible (`Vis::Compact`,
modelled as `none`). -/
structure StreamChunk where
  ops : List Op
  rows : List Row
  vis : Option (List Bool)
deriving DecidableEq

/-- The visibility list of a chunk: the explicit bitmap, or all-`true` for a
compact chunk. -/
def StreamChunk.visList (c : StreamChunk) : List Bool :=
  c.vis.getD (List.replicate c.rows.length true)

/-- The vnode-prefixed key bytes `write_chunk` builds for one row: the
big-endian bytes of the row's computed vnode followed by the serialized pk
projection (lines 615, 624-636). -/
def chunkKey (st : StateTable) (row : Row) : Bytes :=
  vnodeBeBytes (compute_vnode row st.dist_key_indices st.vnodes) ++
    serializePkPfx (project row st.pk_indices)

/-- The value bytes `write_chunk` builds for one row (lines 617-622). -/
def chunkValue (st : StateTable) (row : Row) : Bytes := st.serialize_value row

/-- One step of the `write_chunk` loop (lines 639-658): a visible row is staged
as an insert or delete according to its op; an invisible row is skipped. -/
def write_chunk_step (st : StateTable) (ls : LocalStore) (t : Op × Row × Bool) :
    LocalStore :=
  match t with
  | (op, row, vis) =>
      if vis then
        match op with
        | Op.insert | Op.updateInsert => ls.insert (chunkKey st row) (chunkValue st row) none
        | Op.delete | Op.updateDelete => ls.delete (chunkKey st row) (chunkValue st row)
      else ls

/-- `write_chunk` (lines 612-659): compute vnodes and key/value bytes for every
row, then stage each visible row per its op.  `none` models the `zip_eq`
panics on length mismatches. -/
def write_chunk (st : StateTable) (c : StreamChunk) : Option StateTable :=
  if c.ops.length = c.rows.length ∧ c.visList.length = c.rows.length then
    some { st with
      local_store :=
        ((c.ops.zip (c.rows.zip c.visList)).foldl (write_chunk_step st) st.local_store) }
  else none

/-- The staged ops contributed by one `(op, row, visibility)` triple of a
chunk: a singleton for a visible row, nothing for an invisible one. -/
def chunk_staged_op (st : StateTable) (t : Op × Row × Bool) : List StagedOp :=
  match t with
  | (op, row, vis) =>
      if vis then
        match op with
        | Op.insert | Op.updateInsert =>
            [StagedOp.ins (chunkKey st row) (chunkValue st row) none]
        | Op.delete | Op.updateDelete =>
            [StagedOp.del (chunkKey st row) (chunkValue st row)]
      else []

/-- The staged ops contributed by a whole chunk, in order. -/
def chunk_staged_ops (st : StateTable) (l : List (Op × Row × Bool)) : List StagedOp :=
  (l.map (chunk_staged_op st)).flatten

/-- A bound of a (row or byte) range, as in `std::ops::Bound`. -/
inductive RBound (α : Type) where
  | unbounded
  | included (a : α)
  | excluded (a : α)
deriving DecidableEq

/-- Modelled from the spec (§9 delete-range encoding): the missing
`risingwave_hummock_sdk::key::next_key` — bump the last byte with carry;
trailing `0xFF` bytes are dropped, and an all-`0xFF` (or empty) key yields the
empty key, meaning there is no next key. -/
def next_key (key : Bytes) : Bytes :=
  match key.reverse.dropWhile (fun b => decide (b = 255)) with
  | [] => []
  | b :: rest => ((b + 1) :: rest).reverse

/-- Modelled from the spec: the missing `end_bound_of_prefix` — the "end of
prefix" upper bound: exclusive at the next key, or unbounded when the prefix is
all `0xFF` (§9: "trailing 0xFF bytes → shorter-or-unbounded upper bound"). -/
def endBoundOfPfx (pfx : Bytes) : RBound Bytes :=
  match next_key pfx with
  | [] => RBound.unbounded
  | nk => RBound.excluded nk

/-- Modelled from the spec: the missing `start_bound_of_excluded_prefix` — the
position "just after the serialized prefix", inclusive at the next key. -/
def startBoundOfExcludedPfx (pfx : Bytes) : RBound Bytes :=
  RBound.included (next_key pfx)

/-- Modelled from the spec: the missing `prefixed_range` — prepend a prefix to
both bounds; an unbounded lower bound becomes inclusive at the bare prefix and
an unbounded upper bound becomes the end-of-prefix bound. -/
def prefixed_range (r : RBound Bytes × RBound Bytes) (pfx : Bytes) :
    RBound Bytes × RBound Bytes :=
  (match r.1 with
   | RBound.unbounded => RBound.included pfx
   | RBound.included b => RBound.included (pfx ++ b)
   | RBound.excluded b => RBound.excluded (pfx ++ b),
   match r.2 with
   | RBound.unbounded => endBoundOfPfx pfx
   | RBound.included b => RBound.included (pfx ++ b)
   | RBound.excluded b => RBound.excluded (pfx ++ b))

/-- `to_memcomparable` (lines 1051-1080): serialize the bound's row prefix;
an included upper bound becomes the end-of-prefix bound, an excluded lower
bound the position just after the prefix. -/
def to_memcomparable (bound : RBound Row) (is_upper : Bool) : RBound Bytes :=
  match bound with
  | RBound.unbounded => RBound.unbounded
  | RBound.included r =>
      if is_upper then endBoundOfPfx (serializePkPfx r)
      else RBound.included (serializePkPfx r)
  | RBound.excluded r =>
      if !is_upper then startBoundOfExcludedPfx (serializePkPfx r)
      else RBound.excluded (serializePkPfx r)

/-- `prefix_range_to_memcomparable` (lines 1041-1049). -/
def prefix_range_to_memcomparable (range : RBound Row × RBound Row) :
    RBound Bytes × RBound Bytes :=
  (to_memcomparable range.1 false, to_memcomparable range.2 true)

/-- The byte range `iter_with_pk_range_inner` (lines 894-911) hands to the
store: the memcomparable conversion of the row range, prefixed with the
big-endian vnode bytes. -/
def iter_with_pk_range_key_range (pk_range : RBound Row × RBound Row) (vnode : Nat) :
    RBound Bytes × RBound Bytes :=
  prefixed_range (prefix_range_to_memcomparable pk_range) (vnodeBeBytes vnode)

/-- The `range_begin_suffix` of a cleaning seal (lines 745-752): the serialized
single-column pk-prefix at `last_watermark`, or empty bytes when there is no
last watermark. -/
def rangeBeginSuffix (st : StateTable) : Bytes :=
  match st.last_watermark with
  | some lw => serializeWatermark lw
  | none => []

/-!  ## Test fixtures

Concrete state-table instances used as witnesses and counterexample inputs. -/

/-- A singleton table (empty distribution key, one vnode) over pk column 0
with a clean store at epoch 1. -/
def baseTable : StateTable :=
  { table_id := 1
    local_store := { epoch := 1, committed := [], staged := [], sealed := [] }
    pk_indices := [0]
    dist_key_indices := []
    dist_key_in_pk_indices := []
    prefix_hint_len := 0
    vnodes := [true]
    retention_seconds := none
    disable_sanity_check := false
    vnode_col_idx_in_pk := none
    value_indices := none
    last_watermark := none
    cur_watermark := none
    num_wmked_commits_since_last_clean := 0 }

/-- First watermark-carrying commit from a fresh table. -/
def c1run1 : Option StateTable := commit (update_watermark baseTable 10) ⟨1, 2⟩

/-- Second consecutive watermark-carrying commit. -/
def c1run2 : Option StateTable :=
  c1run1.bind (fun s => commit (update_watermark s 11) ⟨2, 3⟩)

/-- Third consecutive watermark-carrying commit. -/
def c1run3 : Option StateTable :=
  c1run2.bind (fun s => commit (update_watermark s 12) ⟨3, 4⟩)

/-!  ## Helper lemmas -/

/-- A seal whose cleaning threshold is reached (watermark present and bumped
counter at least `STATE_CLEANING_PERIOD_EPOCH`, nonempty pk) emits one
delete-range per set vnode bit, moves `cur_watermark` into `last_watermark`,
and resets the counter. -/
lemma seal_triggered_eq (st : StateTable) (next w : Nat)
    (hw : st.cur_watermark = some w)
    (ht : STATE_CLEANING_PERIOD_EPOCH ≤ st.num_wmked_commits_since_last_clean + 1)
    (hpk : st.pk_indices ≠ []) :
    seal_current_epoch st next = some { st with
      local_store := st.local_store.seal_current_epoch next
        ((iterOnes st.vnodes).map (fun vnode =>
          (usizeBeBytes vnode ++ rangeBeginSuffix st,
           usizeBeBytes vnode ++ serializeWatermark w)))
      last_watermark := some w
      cur_watermark := none
      num_wmked_commits_since_last_clean := 0 } := by
  unfold seal_current_epoch
  rw [hw]
  simp only [Option.isSome_some, if_true, if_pos ht, if_neg hpk, rangeBeginSuffix]

/-- A seal whose cleaning threshold is reached cannot panic: with a watermark
present, a big-enough counter and a nonempty pk it always returns `some`. -/
lemma seal_triggered_isSome (st : StateTable) (next w : Nat)
    (hw : st.cur_watermark = some w)
    (ht : STATE_CLEANING_PERIOD_EPOCH ≤ st.num_wmked_commits_since_last_clean + 1)
    (hpk : st.pk_indices ≠ []) :
    (seal_current_epoch st next).isSome := by
  rw [seal_triggered_eq st next w hw ht hpk]
  rfl

/-- A seal with cleaning triggered but an empty pk hits the
`prefix_serializer.unwrap()` panic. -/
lemma seal_triggered_empty_pk (st : StateTable) (next w : Nat)
    (hw : st.cur_watermark = some w)
    (ht : STATE_CLEANING_PERIOD_EPOCH ≤ st.num_wmked_commits_since_last_clean + 1)
    (hpk : st.pk_indices = []) :
    seal_current_epoch st next = none := by
  unfold seal_current_epoch
  rw [hw]
  simp only [Option.isSome_some, if_true, if_pos ht, if_pos hpk]

/-- A seal with no watermark present just seals with no delete-ranges and
keeps the counter. -/
lemma seal_no_watermark_eq (st : StateTable) (next : Nat)
    (hw : st.cur_watermark = none) :
    seal_current_epoch st next
      = some { st with local_store := st.local_store.seal_current_epoch next [] } := by
  unfold seal_current_epoch
  rw [hw]
  rfl

/-- A seal with a watermark present but a bumped counter below the cleaning
period seals with no delete-ranges and keeps the bumped counter. -/
lemma seal_below_threshold_eq (st : StateTable) (next w : Nat)
    (hw : st.cur_watermark = some w)
    (hlt : ¬STATE_CLEANING_PERIOD_EPOCH ≤ st.num_wmked_commits_since_last_clean + 1) :
    seal_current_epoch st next = some { st with
      local_store := st.local_store.seal_current_epoch next []
      num_wmked_commits_since_last_clean := st.num_wmked_commits_since_last_clean + 1 } := by
  unfold seal_current_epoch
  rw [hw]
  simp only [Option.isSome_some, if_true, if_neg hlt]

/-!  ## Claims -/

/-- C1.  The claim says each watermark-carrying commit increments the
commits-since-clean counter by exactly one, with delete-ranges emitted exactly
when it reaches `STATE_CLEANING_PERIOD_EPOCH = 5`.  The code instead increments
the counter both in `commit` and again inside `seal_current_epoch`, so after
one watermark-carrying commit from a fresh table the counter is already `2`,
after two it is `4`, and the third commit reaches the threshold and emits the
delete-ranges (counter resetting to `0`): the seal log of the three commits
carries `0`, `0` and `1` delete-ranges respectively. -/
theorem c1_commit_double_increments_counter :
    c1run1.map (fun s => s.num_wmked_commits_since_last_clean) = some 2
    ∧ c1run2.map (fun s => s.num_wmked_commits_since_last_clean) = some 4
    ∧ c1run3.map (fun s => s.num_wmked_commits_since_last_clean) = some 0
    ∧ c1run3.map (fun s => s.local_store.sealed.map (fun e => e.2.length))
        = some [0, 0, 1] := by
  refine ⟨rfl, rfl, rfl, rfl⟩

/-- C2.  When a seal triggers state cleaning (watermark present, bumped counter
at the cleaning period, nonempty pk), the delete-range list passed to the
store's `seal_current_epoch` contains exactly one half-open range per set bit
of the vnode bitmap, each from the vnode's big-endian bytes followed by the
serialized last watermark (empty when none) to the vnode's big-endian bytes
followed by the serialized current watermark; afterwards `last_watermark` is
the previous `cur_watermark` and the counter is `0`. -/
theorem c2_cleaning_emits_range_per_vnode (st : StateTable) (next w : Nat)
    (hw : st.cur_watermark = some w)
    (ht : STATE_CLEANING_PERIOD_EPOCH ≤ st.num_wmked_commits_since_last_clean + 1)
    (hpk : st.pk_indices ≠ []) :
    seal_current_epoch st next = some { st with
      local_store := st.local_store.seal_current_epoch next
        ((iterOnes st.vnodes).map (fun vnode =>
          (usizeBeBytes vnode ++ rangeBeginSuffix st,
           usizeBeBytes vnode ++ serializeWatermark w)))
      last_watermark := some w
      cur_watermark := none
      num_wmked_commits_since_last_clean := 0 } :=
  seal_triggered_eq st next w hw ht hpk

/-- A table about to clean: watermark `7`, last watermark `3`, counter `4`,
owning vnodes `0` and `2`. -/
def c2table : StateTable :=
  { baseTable with
    vnodes := [true, false, true]
    cur_watermark := some 7
    last_watermark := some 3
    num_wmked_commits_since_last_clean := 4 }

/-- Witness for C2 at `c2table`, sealing towards epoch `6`. -/
theorem c2_cleaning_emits_range_per_vnode_witness :
    c2table.cur_watermark = some 7
    ∧ STATE_CLEANING_PERIOD_EPOCH ≤ c2table.num_wmked_commits_since_last_clean + 1
    ∧ c2table.pk_indices ≠ []
    ∧ seal_current_epoch c2table 6 = some { c2table with
        local_store := c2table.local_store.seal_current_epoch 6
          ((iterOnes c2table.vnodes).map (fun vnode =>
            (usizeBeBytes vnode ++ rangeBeginSuffix c2table,
             usizeBeBytes vnode ++ serializeWatermark 7)))
        last_watermark := some 7
        cur_watermark := none
        num_wmked_commits_since_last_clean := 0 } :=
  ⟨rfl, by decide, by decide,
    c2_cleaning_emits_range_per_vnode c2table 6 7 rfl (by decide) (by decide)⟩

/-- The serialized key of pk `(5)` under vnode `0`. -/
def c3key : Bytes := serialize_pk_with_vnode [5] 0

/-- A value for pk `(5)` already committed in the store. -/
def c3storedVal : Bytes := serializeValueRow [5, 41]

/-- A table (sanity check enabled) whose committed store already holds a value
at `c3key`. -/
def c3table : StateTable :=
  { baseTable with
    local_store := { epoch := 1, committed := [(c3key, c3storedVal)], staged := [], sealed := [] } }

/-- A row with the same pk `(5)` as the committed value. -/
def c3row : Row := [5, 42]

/-- C3 counterexample.  On `c3table` — sanity check enabled and a value already
stored at `c3key` — `insert` of a row with that very key succeeds and stages
the write instead of aborting: the write path never invokes
`do_insert_sanity_check` (whose verdict at this key would be `false`, i.e. a
panic), because its call sites are commented out in `seal_current_epoch`. -/
theorem c3_insert_not_checked_counterexample :
    c3table.disable_sanity_check = false
    ∧ c3table.local_store.get c3key = some c3storedVal
    ∧ StateTable.insert c3table c3row
        = some (insert_inner c3table c3key (serializeValueRow c3row))
    ∧ (insert_inner c3table c3key (serializeValueRow c3row)).local_store.staged
        = [StagedOp.ins c3key (serializeValueRow c3row) none]
    ∧ do_insert_sanity_check c3table c3key (serializeValueRow c3row) = false := by
  refine ⟨rfl, by decide, by decide, by decide, by decide⟩

/-- C3 amended.  The sanity-check routines implement exactly the claimed
conditions — insert passes iff the key has no stored value, delete passes iff
the stored value matches the expected old row — but the write path applies
every insert, delete and update unconditionally by appending it to the staged
buffer, without consulting the store's prior state. -/
theorem c3_sanity_checks_exist_but_unwired (st : StateTable) (key value old_row : Bytes) :
    (do_insert_sanity_check st key value = true ↔ st.local_store.get key = none)
    ∧ (do_delete_sanity_check st key old_row = true ↔ st.local_store.get key = some old_row)
    ∧ (insert_inner st key value).local_store.staged
        = st.local_store.staged ++ [StagedOp.ins key value none]
    ∧ (delete_inner st key old_row).local_store.staged
        = st.local_store.staged ++ [StagedOp.del key old_row]
    ∧ (update_inner st key old_row value).local_store.staged
        = st.local_store.staged ++ [StagedOp.ins key value (some old_row)] := by
  refine ⟨?_, ?_, rfl, rfl, rfl⟩
  · unfold do_insert_sanity_check
    cases h : st.local_store.get key <;> simp
  · unfold do_delete_sanity_check
    cases h : st.local_store.get key <;> simp

/-- A table whose current watermark is `5`. -/
def c4table : StateTable := { baseTable with cur_watermark := some 5 }

/-- C4 counterexample.  `update_watermark 3` on a table whose watermark is
already `5` is not rejected: the smaller watermark is silently installed. -/
theorem c4_no_monotonicity_check_counterexample :
    c4table.cur_watermark = some 5
    ∧ (3 : Nat) < 5
    ∧ update_watermark c4table 3 = { c4table with cur_watermark := some 3 } := by
  refine ⟨rfl, by decide, rfl⟩

/-- C4 amended.  `update_watermark` performs no monotonicity check: it
unconditionally overwrites `cur_watermark` with the new value, even when a
larger watermark is already set; monotonicity is an unchecked caller
obligation. -/
theorem c4_update_watermark_unconditional (st : StateTable) (w w0 : Nat)
    (h : st.cur_watermark = some w0) :
    update_watermark st w = { st with cur_watermark := some w } := rfl

/-- Witness for the amended C4 at `c4table` with the non-monotone watermark
`3 < 5`. -/
theorem c4_update_watermark_unconditional_witness :
    update_watermark c4table 3 = { c4table with cur_watermark := some 3 } :=
  c4_update_watermark_unconditional c4table 3 5 rfl

/-- The `write_chunk` loop only ever appends to the staged buffer: folding the
step over the `(op, row, visibility)` triples appends exactly the staged ops of
the visible rows. -/
lemma write_chunk_foldl_staged (st : StateTable) (l : List (Op × Row × Bool))
    (ls : LocalStore) :
    l.foldl (write_chunk_step st) ls
      = { ls with staged := ls.staged ++ chunk_staged_ops st l } := by
  induction l generalizing ls with
  | nil => simp [chunk_staged_ops]
  | cons t rest ih =>
      obtain ⟨op, row, vis⟩ := t
      rw [List.foldl_cons, ih]
      cases vis
      · simp [write_chunk_step, chunk_staged_ops, chunk_staged_op]
      · cases op <;>
          simp [write_chunk_step, chunk_staged_ops, chunk_staged_op, LocalStore.insert,
            LocalStore.delete, List.append_assoc]

/-- A table distributed on column 1 over `V = 8` vnodes, owning vnodes
`{0, 1}`. -/
def c5table : StateTable :=
  { baseTable with
    dist_key_indices := [1]
    vnodes := [true, true, false, false, false, false, false, false] }

/-- A chunk with a single fully visible insert whose row hashes to the unowned
vnode `5`. -/
def c5chunk : StreamChunk :=
  { ops := [Op.insert], rows := [[9, 5]], vis := some [true] }

/-- C5 counterexample.  The single row of `c5chunk` is visible and hashes to
vnode `5`, which `c5table` does not own; yet `write_chunk` stages it as an
insert instead of dropping it — no vnode-based filtering happens. -/
theorem c5_unowned_vnode_row_staged_counterexample :
    compute_vnode [9, 5] c5table.dist_key_indices c5table.vnodes = 5
    ∧ c5table.vnodes.getD 5 false = false
    ∧ write_chunk c5table c5chunk = some { c5table with
        local_store := c5table.local_store.insert (chunkKey c5table [9, 5])
          (chunkValue c5table [9, 5]) none }
    ∧ (write_chunk c5table c5chunk).map (fun s => s.local_store.staged.length)
        = some 1 := by
  refine ⟨by decide, by decide, by decide, by decide⟩

/-- C5 amended.  `write_chunk` filters rows only by the chunk's own visibility
bitmap: every visible row is staged as an insert or delete according to its op
and every invisible row is skipped, regardless of whether the row's computed
vnode is owned; vnode ownership is not consulted in `write_chunk`. -/
theorem c5_visibility_bitmap_only_filter (st : StateTable) (c : StreamChunk)
    (hops : c.ops.length = c.rows.length)
    (hvis : c.visList.length = c.rows.length) :
    write_chunk st c = some { st with
      local_store := { st.local_store with
        staged := st.local_store.staged
          ++ chunk_staged_ops st (c.ops.zip (c.rows.zip c.visList)) } } := by
  unfold write_chunk
  rw [if_pos ⟨hops, hvis⟩, write_chunk_foldl_staged]

/-- Witness for the amended C5 at `c5table` and `c5chunk`. -/
theorem c5_visibility_bitmap_only_filter_witness :
    write_chunk c5table c5chunk = some { c5table with
      local_store := { c5table.local_store with
        staged := c5table.local_store.staged
          ++ chunk_staged_ops c5table (c5chunk.ops.zip (c5chunk.rows.zip c5chunk.visList)) } } :=
  c5_visibility_bitmap_only_filter c5table c5chunk (by decide) (by decide)

/-- A table whose bloom-filter prefix hint length is `1`. -/
def c6table : StateTable := { baseTable with prefix_hint_len := 1 }

/-- A one-column pk prefix, matching `c6table.prefix_hint_len`. -/
def c6pk : Row := [7]

/-- C6 counterexample.  On `c6table` with a prefix of exactly
`prefix_hint_len` columns, the point get issued by `get_compacted_row` has
`check_bloom_filter = true` but its `prefix_hint` is `none`, not the serialized
prefix `[0, 0, 0, 7]`. -/
theorem c6_prefix_hint_none_counterexample :
    c6table.prefix_hint_len = 1
    ∧ c6pk.length = 1
    ∧ (get_compacted_row_request c6table c6pk).map
        (fun r => (r.2.check_bloom_filter, r.2.prefix_hint)) = some (true, none)
    ∧ serializePkPfx c6pk = [0, 0, 0, 7]
    ∧ (some (serializePkPfx c6pk) : Option Bytes) ≠ none := by
  refine ⟨rfl, rfl, by decide, by decide, by decide⟩

/-- C6 amended.  Every point get issued by `get_compacted_row` carries
`prefix_hint = none`; `check_bloom_filter` is `true` exactly when
`prefix_hint_len` is nonzero and equals the prefix length. -/
theorem c6_get_read_options (st : StateTable) (pk : Row) (key : Bytes)
    (opts : ReadOptions)
    (h : get_compacted_row_request st pk = some (key, opts)) :
    opts.prefix_hint = none
    ∧ (opts.check_bloom_filter = true
        ↔ st.prefix_hint_len ≠ 0 ∧ st.prefix_hint_len = pk.length) := by
  unfold get_compacted_row_request at h
  cases hv : compute_prefix_vnode st pk with
  | none => rw [hv] at h; exact absurd h (by simp)
  | some vnode =>
      rw [hv] at h
      dsimp only at h
      by_cases hlen : pk.length ≤ st.pk_indices.length
      · rw [if_pos hlen] at h
        rw [Option.some_inj, Prod.mk.injEq] at h
        rw [← h.2]
        refine ⟨rfl, ?_⟩
        simp [Bool.and_eq_true, decide_eq_true_iff]
      · rw [if_neg hlen] at h
        exact absurd h (by simp)

/-- Witness for the amended C6 at `c6table` and `c6pk`. -/
theorem c6_get_read_options_witness :
    ({ prefix_hint := none
       check_bloom_filter := true
       retention_seconds := none
       table_id := 1
       ignore_range_tombstone := false
       read_version_from_backup := false } : ReadOptions).prefix_hint = none
    ∧ (({ prefix_hint := none
          check_bloom_filter := true
          retention_seconds := none
          table_id := 1
          ignore_range_tombstone := false
          read_version_from_backup := false } : ReadOptions).check_bloom_filter = true
        ↔ c6table.prefix_hint_len ≠ 0 ∧ c6table.prefix_hint_len = c6pk.length) :=
  c6_get_read_options c6table c6pk (serialize_pk_with_vnode c6pk 0)
    { prefix_hint := none
      check_bloom_filter := true
      retention_seconds := none
      table_id := 1
      ignore_range_tombstone := false
      read_version_from_backup := false } (by decide)

/-- C7.  The byte range handed to the store by `iter_with_pk_range` arises from
the row bounds by: included lower → the serialized bytes, included; excluded
lower → the position just after the serialized prefix, included; included
upper → the end-of-prefix bound; excluded upper → the serialized bytes,
excluded; unbounded → unbounded over the vnode; and every resulting bound
carries the big-endian vnode bytes as its first bytes. -/
theorem c7_pk_range_to_byte_range (lo hi : RBound Row) (vnode : Nat) :
    iter_with_pk_range_key_range (lo, hi) vnode =
    ((match lo with
      | RBound.unbounded => RBound.included (vnodeBeBytes vnode)
      | RBound.included r => RBound.included (vnodeBeBytes vnode ++ serializePkPfx r)
      | RBound.excluded r =>
          RBound.included (vnodeBeBytes vnode ++ next_key (serializePkPfx r))),
     (match hi with
      | RBound.unbounded => endBoundOfPfx (vnodeBeBytes vnode)
      | RBound.included r =>
          if next_key (serializePkPfx r) = [] then endBoundOfPfx (vnodeBeBytes vnode)
          else RBound.excluded (vnodeBeBytes vnode ++ next_key (serializePkPfx r))
      | RBound.excluded r => RBound.excluded (vnodeBeBytes vnode ++ serializePkPfx r))) := by
  cases lo <;> cases hi <;> try rfl
  all_goals
    rename_i r
  all_goals
    unfold iter_with_pk_range_key_range prefix_range_to_memcomparable to_memcomparable
      prefixed_range
  all_goals
    cases hnk : next_key (serializePkPfx r) <;>
      simp [endBoundOfPfx, hnk, startBoundOfExcludedPfx]

/-- A non-singleton table owning vnode `0` of two, with nonzero watermark
bookkeeping and a clean store. -/
def c8table : StateTable :=
  { baseTable with
    dist_key_indices := [1]
    vnodes := [true, false]
    cur_watermark := some 5
    last_watermark := some 3
    num_wmked_commits_since_last_clean := 3 }

/-- The replacement bitmap for `c8table`: same size, different bits. -/
def c8newBm : List Bool := [false, true]

/-- C8 counterexample.  Rebinding `c8table` to a new bitmap clears both
watermarks and returns the previous bitmap, but leaves the commits-since-clean
counter at `3` — the counter is not part of the cleared bookkeeping. -/
theorem c8_counter_not_cleared_counterexample :
    c8table.num_wmked_commits_since_last_clean = 3
    ∧ (update_vnode_bitmap c8table c8newBm).map
        (fun r => (r.1, r.2.cur_watermark, r.2.last_watermark,
          r.2.num_wmked_commits_since_last_clean))
      = some ([true, false], none, none, 3) := by
  refine ⟨rfl, by decide⟩

/-- C8 amended.  `update_vnode_bitmap` is fatal when the table is dirty, when a
singleton table's bitmap would change, or when the bitmap sizes differ;
otherwise it clears `cur_watermark` and `last_watermark` (leaving the
commits-since-clean counter untouched), installs the new bitmap and returns
the previous one. -/
theorem c8_update_vnode_bitmap_spec (st : StateTable) (nb : List Bool) :
    update_vnode_bitmap st nb =
      (if st.is_dirty = false ∧ (st.dist_key_indices = [] → nb = st.vnodes)
          ∧ st.vnodes.length = nb.length
       then some (st.vnodes,
         { st with cur_watermark := none, last_watermark := none, vnodes := nb })
       else none) := by
  unfold update_vnode_bitmap
  cases hd : st.is_dirty with
  | true =>
      rw [if_pos rfl, if_neg]
      rintro ⟨h1, -, -⟩
      exact absurd h1 (by decide)
  | false =>
      rw [if_neg (by simp)]
      by_cases h2 : st.dist_key_indices = [] ∧ nb ≠ st.vnodes
      · rw [if_pos h2, if_neg]
        rintro ⟨-, h, -⟩
        exact h2.2 (h h2.1)
      · rw [if_neg h2]
        by_cases h3 : st.vnodes.length ≠ nb.length
        · rw [if_pos h3, if_neg]
          rintro ⟨-, -, h⟩
          exact h3 h
        · rw [if_neg h3, if_pos]
          exact ⟨rfl, fun hdk => not_not.mp (fun hne => h2 ⟨hdk, hne⟩), not_not.mp h3⟩

/-- The state-table side of a seal never loses the epoch advance: a successful
`seal_current_epoch` leaves the local store at the requested next epoch with
exactly one more entry in the seal log. -/
lemma seal_some_epoch (st : StateTable) (n : Nat) (st2 : StateTable)
    (h : seal_current_epoch st n = some st2) :
    st2.local_store.epoch = n := by
  cases hw : st.cur_watermark with
  | none =>
      rw [seal_no_watermark_eq st n hw, Option.some_inj] at h
      subst h
      rfl
  | some w =>
      by_cases ht : STATE_CLEANING_PERIOD_EPOCH ≤ st.num_wmked_commits_since_last_clean + 1
      · by_cases hpk : st.pk_indices = []
        · rw [seal_triggered_empty_pk st n w hw ht hpk] at h
          exact absurd h (by simp)
        · rw [seal_triggered_eq st n w hw ht hpk, Option.some_inj] at h
          subst h
          rfl
      · rw [seal_below_threshold_eq st n w hw ht, Option.some_inj] at h
        subst h
        rfl

/-- C9.  `commit` asserts that the store is at the previous epoch before any
sealing happens, and any successful commit leaves the store at the new current
epoch; `commit_no_data_expected` additionally asserts cleanliness and seals
with the empty delete-range list, advancing the store's epoch to `curr`;
violated assertions are fatal (`none`). -/
theorem c9_commit_assertions (st : StateTable) (e : EpochPair) :
    (st.local_store.epoch ≠ e.prev →
      commit st e = none ∧ commit_no_data_expected st e = none)
    ∧ (commit st e ≠ none → st.local_store.epoch = e.prev)
    ∧ (∀ st2, commit st e = some st2 → st2.local_store.epoch = e.curr)
    ∧ (commit_no_data_expected st e ≠ none →
        st.local_store.epoch = e.prev ∧ st.is_dirty = false)
    ∧ (st.local_store.epoch = e.prev → st.is_dirty = false →
        commit_no_data_expected st e
          = some { st with local_store := st.local_store.seal_current_epoch e.curr [] }
        ∧ (st.local_store.seal_current_epoch e.curr []).epoch = e.curr
        ∧ (st.local_store.seal_current_epoch e.curr []).sealed
            = st.local_store.sealed ++ [(e.curr, [])]) := by
  refine ⟨?_, ?_, ?_, ?_, ?_⟩
  · intro hp
    constructor
    · unfold commit
      rw [if_neg hp]
    · unfold commit_no_data_expected
      rw [if_neg (fun hc => hp hc.1)]
  · intro h
    by_cases hp : st.local_store.epoch = e.prev
    · exact hp
    · unfold commit at h
      rw [if_neg hp] at h
      exact absurd rfl h
  · intro st2 h
    unfold commit at h
    by_cases hp : st.local_store.epoch = e.prev
    · rw [if_pos hp] at h
      split at h <;> exact seal_some_epoch _ _ _ h
    · rw [if_neg hp] at h
      exact absurd h (by simp)
  · intro h
    by_cases hc : st.local_store.epoch = e.prev ∧ st.is_dirty = false
    · exact hc
    · unfold commit_no_data_expected at h
      rw [if_neg hc] at h
      exact absurd rfl h
  · intro h1 h2
    unfold commit_no_data_expected
    rw [if_pos ⟨h1, h2⟩]
    exact ⟨rfl, rfl, rfl⟩

/-- Witness for C9: a clean table at epoch `1` commits (no data expected)
towards `(1, 2)`; the seal carries the empty delete-range list and the store
advances to epoch `2`. -/
theorem c9_commit_assertions_witness :
    commit_no_data_expected baseTable ⟨1, 2⟩
      = some { baseTable with
          local_store := baseTable.local_store.seal_current_epoch 2 [] }
    ∧ (baseTable.local_store.seal_current_epoch 2 []).epoch = 2
    ∧ (baseTable.local_store.seal_current_epoch 2 []).sealed
        = baseTable.local_store.sealed ++ [(2, [])] :=
  (c9_commit_assertions baseTable ⟨1, 2⟩).2.2.2.2 rfl rfl

/-- C10.  Whenever a seal with the cleaning threshold reached succeeds (so
delete-ranges were emitted), the resulting state has `cur_watermark = none`:
the watermark was moved into `last_watermark` rather than retained, so a later
commit can only contribute to the next cleaning cycle after a fresh
`update_watermark`. -/
theorem c10_watermark_consumed_by_cleaning (st : StateTable) (next w : Nat)
    (st2 : StateTable)
    (hw : st.cur_watermark = some w)
    (ht : STATE_CLEANING_PERIOD_EPOCH ≤ st.num_wmked_commits_since_last_clean + 1)
    (h : seal_current_epoch st next = some st2) :
    st2.cur_watermark = none ∧ st2.last_watermark = some w := by
  by_cases hpk : st.pk_indices = []
  · rw [seal_triggered_empty_pk st next w hw ht hpk] at h
    exact absurd h (by simp)
  · rw [seal_triggered_eq st next w hw ht hpk, Option.some_inj] at h
    rw [← h]
    exact ⟨rfl, rfl⟩

/-- A table one watermark-carrying seal away from cleaning. -/
def c10table : StateTable :=
  { baseTable with cur_watermark := some 9, num_wmked_commits_since_last_clean := 4 }

/-- The state after `c10table` seals towards epoch `2` with cleaning
triggered. -/
def c10result : StateTable :=
  { c10table with
    local_store := c10table.local_store.seal_current_epoch 2
      ((iterOnes c10table.vnodes).map (fun vnode =>
        (usizeBeBytes vnode ++ rangeBeginSuffix c10table,
         usizeBeBytes vnode ++ serializeWatermark 9)))
    last_watermark := some 9
    cur_watermark := none
    num_wmked_commits_since_last_clean := 0 }

/-- Witness for C10 at `c10table`. -/
theorem c10_watermark_consumed_by_cleaning_witness :
    c10result.cur_watermark = none ∧ c10result.last_watermark = some 9 :=
  c10_watermark_consumed_by_cleaning c10table 2 9 c10result rfl (by decide) (by decide)

end RW
